import Mathlib

/-! Verification of the droideer UI-automation core: a shallow embedding of
the snapshot parser (`src/utils/xml-parser.js`), the tree model and query
engine (`src/Page.js`, classes `AndroidDevice` / `Selector` / `Page`), and the
element handle (`src/Element.js`), together with proofs of the testable
properties stated for those components.

Conventions of the embedding:
* JavaScript strings are Lean `String`s; machine integers do not occur.
* JavaScript `undefined` for the optional string fields of the degraded
  fallback node is modelled as the empty string (every comparison the
  claims exercise treats the two identically; see `fallbackNode`).
* Fallible JavaScript code (thrown exceptions) is modelled with `Except` /
  `Option`; the xml2js callback parser is embedded as a fuel-bounded
  recursive-descent parser returning `Except`.
* JavaScript regular-expression literals are embedded as dedicated
  scanning functions with the same matching semantics (leftmost match,
  greedy character classes; each literal used by the source is
  deterministic, so no general backtracking is required).
-/

/-- JavaScript `a || d` where `a` is a possibly-absent attribute string:
`undefined` and the empty string are falsy. -/
def jsOr (o : Option String) (d : String) : String :=
  match o with
  | some v => if v = "" then d else v
  | none => d

/-- JavaScript `s || d` for a present string: the empty string is falsy. -/
def jsOrS (s d : String) : String :=
  if s = "" then d else s

/-- First binding of `key` in an association list (JS object property read). -/
def assocLookup : List (String × String) → String → Option String
  | [], _ => none
  | (k, v) :: rest, key => if k = key then some v else assocLookup rest key

/-- `sub` occurs as a contiguous run inside `s` (JS `String.prototype.includes`). -/
def listContains : List Char → List Char → Bool
  | [], sub => sub.isEmpty
  | c :: t, sub => sub.isPrefixOf (c :: t) || listContains t sub

def jsIncludes (s sub : String) : Bool := listContains s.data sub.data

/-- JS `String.prototype.endsWith`.  -/
def jsEndsWith (s suffix : String) : Bool := suffix.data.isSuffixOf s.data

/-- JS `String.prototype.startsWith`.  -/
def jsStartsWith (s pre : String) : Bool := pre.data.isPrefixOf s.data

/-- JS `String.prototype.toLowerCase` (ASCII; the dumps are ASCII). -/
def toLowerStr (s : String) : String := ⟨s.data.map Char.toLower⟩

/-- Decimal digit run to number (JS `parseInt` on an all-digit string). -/
def digitsToNat (ds : List Char) : Nat :=
  ds.foldl (fun a c => 10 * a + (c.toNat - 48)) 0

/-- Decimal representation of a natural number (JS `String(n)` for `n ≥ 0`). -/
def natToStrAux (n : Nat) (acc : List Char) : List Char :=
  let d := Char.ofNat (48 + n % 10)
  if _h : n < 10 then d :: acc
  else natToStrAux (n / 10) (d :: acc)
termination_by n
decreasing_by exact Nat.div_lt_self (by omega) (by omega)

def natToStr (n : Nat) : String := ⟨natToStrAux n []⟩

/-- `text.replace(/"/g, '\\"')` in `generateSelector`. -/
def escapeQuotes (s : String) : String :=
  ⟨s.data.foldr (fun c acc => if c = '"' then '\\' :: '"' :: acc else c :: acc) []⟩

/-- The parsed bounds rectangle computed by `processNode` (xml-parser.js
lines 124-137) and `AndroidElement._parseBounds` (Element.js lines 40-55);
the two JavaScript copies are textually identical. -/
structure Rect where
  x1 : Nat
  y1 : Nat
  x2 : Nat
  y2 : Nat
  centerX : Nat
  centerY : Nat
  width : Int
  height : Int
deriving DecidableEq, Repr

def expectChar (c : Char) (l : List Char) : Option (List Char) :=
  match l with
  | c' :: r => if c' = c then some r else none
  | [] => none

/-- Leading decimal-digit run (the `\d+` pieces of the bounds regex). -/
def parseNatRun (l : List Char) : Option (Nat × List Char) :=
  let ds := l.takeWhile (·.isDigit)
  if ds.isEmpty then none else some (digitsToNat ds, l.drop ds.length)

/-- Match `[(\d+),(\d+)\]\[(\d+),(\d+)\]` at the head of the character list. -/
def matchBoundsAt (l : List Char) : Option (Nat × Nat × Nat × Nat) := do
  let r ← expectChar '[' l
  let (a, r) ← parseNatRun r
  let r ← expectChar ',' r
  let (b, r) ← parseNatRun r
  let r ← expectChar ']' r
  let r ← expectChar '[' r
  let (c, r) ← parseNatRun r
  let r ← expectChar ',' r
  let (d, r) ← parseNatRun r
  let _ ← expectChar ']' r
  pure (a, b, c, d)

/-- Leftmost match of the bounds regex anywhere in the string. -/
def searchBounds : List Char → Option (Nat × Nat × Nat × Nat)
  | [] => none
  | c :: rest =>
    match matchBoundsAt (c :: rest) with
    | some x => some x
    | none => searchBounds rest

/-- `bounds.match(/\[(\d+),(\d+)\]\[(\d+),(\d+)\]/)` followed by the
`boundsRect` construction (`Math.floor` is `Nat` division; `width`/`height`
may be negative in JS, hence `Int`). -/
def parseBoundsRect (s : String) : Option Rect :=
  match searchBounds s.data with
  | some (a, b, c, d) =>
    some { x1 := a, y1 := b, x2 := c, y2 := d,
           centerX := (a + c) / 2, centerY := (b + d) / 2,
           width := (c : Int) - (a : Int), height := (d : Int) - (b : Int) }
  | none => none

/-- The scalar fields of a processed UI node, named after the keys the
JavaScript object carries (`class` ↦ `className`, `resource-id` ↦
`resourceId`, `content-desc` ↦ `contentDesc`, `long-clickable` ↦
`longClickable`, `visible-to-user` ↦ `visibleToUser`). `attrs` is the
`attributes` copy of the raw dump attributes kept for debugging. -/
structure NodeInfo where
  id : Nat
  tag : String
  className : String
  resourceId : String
  text : String
  contentDesc : String
  bounds : String
  index : String
  package : String
  clickable : String
  longClickable : String
  enabled : String
  selected : String
  focused : String
  focusable : String
  scrollable : String
  checkable : String
  checked : String
  password : String
  visibleToUser : String
  attrs : List (String × String)
  boundsRect : Option Rect
  selector : String
deriving DecidableEq, Repr

/-- A processed UI node: the object built by `processNode` (and, degraded,
by the `parseUIHierarchy` catch block). -/
inductive PNode where
  | mk (info : NodeInfo) (children : List PNode)

def PNode.info : PNode → NodeInfo
  | .mk i _ => i

def PNode.children : PNode → List PNode
  | .mk _ cs => cs

/-- One element of the raw markup tree handed to `processNode`: its
attribute map (`node.$` in xml2js output) and its `node`-tagged children. -/
inductive RawNode where
  | mk (attrs : List (String × String)) (children : List RawNode)

def RawNode.attrs : RawNode → List (String × String)
  | .mk a _ => a

def RawNode.children : RawNode → List RawNode
  | .mk _ cs => cs

/-- `generateSelector` from xml-parser.js lines 153-172; the body of
`AndroidElement._generateSelector` (Element.js lines 57-75) is textually
identical, so both are embedded by this one definition. -/
def generateSelector (className resourceId text contentDesc index : String) : String :=
  let s := className
  let s :=
    if resourceId ≠ "" then s ++ "[@resource-id=\"" ++ resourceId ++ "\"]"
    else if text ≠ "" then s ++ "[@text=\"" ++ escapeQuotes text ++ "\"]"
    else if contentDesc ≠ "" then
      s ++ "[@content-desc=\"" ++ escapeQuotes contentDesc ++ "\"]"
    else s
  if index ≠ "" ∧ index ≠ "0" then s ++ "[" ++ index ++ "]" else s

/-- The scalar part of `processNode` (xml-parser.js lines 84-141): every
field filled from the raw attributes with the source's defaults, the bounds
rectangle parsed from the (possibly defaulted) bounds string, and the debug
selector generated from the filled fields. -/
def processInfo (attrs : List (String × String)) (id : Nat) : NodeInfo :=
  let a := assocLookup attrs
  let base : NodeInfo :=
    { id := id
      tag := "node"
      className := jsOr (a "class") "android.view.View"
      resourceId := jsOr (a "resource-id") ""
      text := jsOr (a "text") ""
      contentDesc := jsOr (a "content-desc") ""
      bounds := jsOr (a "bounds") "[0,0][0,0]"
      index := jsOr (a "index") "0"
      package := jsOr (a "package") ""
      clickable := jsOr (a "clickable") "false"
      longClickable := jsOr (a "long-clickable") "false"
      enabled := jsOr (a "enabled") "true"
      selected := jsOr (a "selected") "false"
      focused := jsOr (a "focused") "false"
      focusable := jsOr (a "focusable") "false"
      scrollable := jsOr (a "scrollable") "false"
      checkable := jsOr (a "checkable") "false"
      checked := jsOr (a "checked") "false"
      password := jsOr (a "password") "false"
      visibleToUser := jsOr (a "visible-to-user") "true"
      attrs := attrs
      boundsRect := none
      selector := "" }
  let base := { base with boundsRect := parseBoundsRect base.bounds }
  { base with selector := (generateSelector base.className base.resourceId
      base.text base.contentDesc base.index) }

mutual
/-- `processNode` (xml-parser.js lines 84-151): one processed node per raw
node, children in document order with identifiers `id * 1000 + 1`,
`id * 1000 + 2`, …  -/
def processNode : RawNode → Nat → PNode
  | .mk attrs children, id =>
    PNode.mk (processInfo attrs id) (processChildren children (id * 1000 + 1))

/-- The `for (const child of node.node)` loop with `childId++`. -/
def processChildren : List RawNode → Nat → List PNode
  | [], _ => []
  | c :: cs, k => processNode c k :: processChildren cs (k + 1)
end

/-! ## Selector values and the query engine (`src/Page.js`, class `Selector`) -/

/-- A JavaScript selector-field value as the query engine inspects it:
a string, a boolean, or a `RegExp` object.  A `RegExp` is handled opaquely
by the source (`value.test(...)`, `value.source` via re-wrapping), so it is
embedded as its source text together with its test function. -/
inductive SelVal where
  | sstr (s : String)
  | sbool (b : Bool)
  | sregex (source : String) (test : String → Bool)

/-- A selector as accepted by `Selector._matchesSelector`: a shorthand
string or a predicate object (ordered field list, as `Object.entries`). -/
inductive JSSelector where
  | str (s : String)
  | obj (fields : List (String × SelVal))

/-- JS truthiness `Boolean(value)` of a selector value (a non-empty string
and any object are truthy). -/
def jsTruthy : SelVal → Bool
  | .sstr s => s ≠ ""
  | .sbool b => b
  | .sregex _ _ => true

/-- JS `String(value)` / template-literal stringification of a selector
value (`String(/re/)` is `"/re/"`). -/
def jsStringOf : SelVal → String
  | .sstr s => s
  | .sbool b => if b then "true" else "false"
  | .sregex src _ => "/" ++ src ++ "/"

/-- JS strict equality `s === value` between a node's string field and a
selector value (strictly unequal when the value is not a string). -/
def jsEqSel (s : String) : SelVal → Bool
  | .sstr s' => s == s'
  | _ => false

/-- The pattern source handed to `new RegExp(value, 'i')` (a non-regex
value is stringified by the `RegExp` constructor). -/
def regexSourceOf : SelVal → String
  | .sstr s => s
  | .sbool b => if b then "true" else "false"
  | .sregex src _ => src

/-- Read of `node[key]` for the string-valued keys of a processed node
(`_matchStringSelector` attribute selectors and the `default:` case of
`_matchObjectSelector`).  Keys naming the non-string fields (`id`,
`children`, `attributes`, `boundsRect`) or absent keys yield `none`; a JS
strict comparison of those against a string/boolean value is false. -/
def getStrField (n : NodeInfo) (key : String) : Option String :=
  if key = "tag" then some n.tag
  else if key = "class" then some n.className
  else if key = "resource-id" then some n.resourceId
  else if key = "text" then some n.text
  else if key = "content-desc" then some n.contentDesc
  else if key = "bounds" then some n.bounds
  else if key = "index" then some n.index
  else if key = "package" then some n.package
  else if key = "clickable" then some n.clickable
  else if key = "long-clickable" then some n.longClickable
  else if key = "enabled" then some n.enabled
  else if key = "selected" then some n.selected
  else if key = "focused" then some n.focused
  else if key = "focusable" then some n.focusable
  else if key = "scrollable" then some n.scrollable
  else if key = "checkable" then some n.checkable
  else if key = "checked" then some n.checked
  else if key = "password" then some n.password
  else if key = "visible-to-user" then some n.visibleToUser
  else if key = "selector" then some n.selector
  else none

/-- `node[attr] !== undefined` for the attribute-existence selector. -/
def fieldExists (n : NodeInfo) (key : String) : Bool :=
  (getStrField n key).isSome || key == "id" || key == "children" ||
    key == "attributes" || (key == "boundsRect" && n.boundsRect.isSome)

/-- One field test of `Selector._matchObjectSelector` (Page.js lines
1038-1136): the body of the `switch (key)` for a single entry, `true`
meaning the entry does not reject the node.  Non-string values reaching a
string-only operation (e.g. `contains` with a boolean, which would throw in
JS) are modelled as rejection; no claim exercises them. -/
def matchObjField (ri : String → String → Bool) (n : NodeInfo)
    (key : String) (v : SelVal) : Bool :=
  if key == "text" then
    match v with
    | .sregex _ t => t n.text
    | _ => jsEqSel n.text v
  else if key == "textContains" || key == "contains" then
    match v with
    | .sstr s =>
      jsIncludes (toLowerStr n.text) (toLowerStr s) ||
        jsIncludes (toLowerStr n.contentDesc) (toLowerStr s)
    | _ => false
  else if key == "textMatches" then
    ri (regexSourceOf v) n.text || ri (regexSourceOf v) n.contentDesc
  else if key == "resourceId" || key == "id" then
    match v with
    | .sstr s => n.resourceId == s || jsEndsWith n.resourceId (":id/" ++ s)
    | .sregex _ t => t n.resourceId
    | .sbool _ => true
  else if key == "className" || key == "class" then
    match v with
    | .sregex _ t => t n.className
    | _ => jsEqSel n.className v
  else if key == "contentDesc" || key == "description" then
    match v with
    | .sregex _ t => t n.contentDesc
    | _ => jsEqSel n.contentDesc v
  else if key == "clickable" then n.clickable == jsStringOf v
  else if key == "enabled" then n.enabled == jsStringOf v
  else if key == "selected" then n.selected == jsStringOf v
  else if key == "checked" then n.checked == jsStringOf v
  else if key == "scrollable" then n.scrollable == jsStringOf v
  else if key == "focusable" then n.focusable == jsStringOf v
  else if key == "focused" then n.focused == jsStringOf v
  else if key == "index" then n.index == jsStringOf v
  else if key == "bounds" then jsEqSel n.bounds v
  else if key == "package" then jsEqSel n.package v
  else
    match getStrField n key with
    | some s => jsEqSel s v
    | none => false

/-- `Selector._matchObjectSelector`: every listed field must pass (the
source's early `return false` per field is the same conjunction). -/
def matchObjectSelector (ri : String → String → Bool) (n : NodeInfo)
    (fields : List (String × SelVal)) : Bool :=
  fields.all fun kv => matchObjField ri n kv.1 kv.2

/-- Match of `/\[([^=]+)=["']?([^"'\]]+)["']?\]/` anchored at the head of
the list.  The character classes exclude the delimiters they precede, so
the JS backtracking is deterministic: group 1 runs to the first `=`, an
opening quote is consumed if present, group 2 runs to the first quote or
`]`, and a closing quote must be followed by `]`. -/
def attrEqAt (l : List Char) : Option (String × String) :=
  match l with
  | '[' :: r1 =>
    let g1 := r1.takeWhile (· ≠ '=')
    if g1.isEmpty then none
    else
      match r1.drop g1.length with
      | '=' :: r2 =>
        let r3 := match r2 with
          | c :: r3' => if c = '"' ∨ c = '\'' then r3' else r2
          | [] => r2
        let g2 := r3.takeWhile fun c => c ≠ '"' ∧ c ≠ '\'' ∧ c ≠ ']'
        if g2.isEmpty then none
        else
          match r3.drop g2.length with
          | ']' :: _ => some (⟨g1⟩, ⟨g2⟩)
          | '"' :: ']' :: _ => some (⟨g1⟩, ⟨g2⟩)
          | '\'' :: ']' :: _ => some (⟨g1⟩, ⟨g2⟩)
          | _ => none
      | _ => none
  | _ => none

def searchAttrEq : List Char → Option (String × String)
  | [] => none
  | c :: rest =>
    match attrEqAt (c :: rest) with
    | some x => some x
    | none => searchAttrEq rest

/-- Match of `/\[([^*]+)\*=["']?([^"'\]]+)["']?\]/` anchored at the head:
group 1 runs to the first `*`, which must be followed by `=`. -/
def attrContainsAt (l : List Char) : Option (String × String) :=
  match l with
  | '[' :: r1 =>
    let g1 := r1.takeWhile (· ≠ '*')
    if g1.isEmpty then none
    else
      match r1.drop g1.length with
      | '*' :: '=' :: r2 =>
        let r3 := match r2 with
          | c :: r3' => if c = '"' ∨ c = '\'' then r3' else r2
          | [] => r2
        let g2 := r3.takeWhile fun c => c ≠ '"' ∧ c ≠ '\'' ∧ c ≠ ']'
        if g2.isEmpty then none
        else
          match r3.drop g2.length with
          | ']' :: _ => some (⟨g1⟩, ⟨g2⟩)
          | '"' :: ']' :: _ => some (⟨g1⟩, ⟨g2⟩)
          | '\'' :: ']' :: _ => some (⟨g1⟩, ⟨g2⟩)
          | _ => none
      | _ => none
  | _ => none

def searchAttrContains : List Char → Option (String × String)
  | [] => none
  | c :: rest =>
    match attrContainsAt (c :: rest) with
    | some x => some x
    | none => searchAttrContains rest

/-- Match of `/\[([^=\]]+)\]/` anchored at the head. -/
def attrExistsAt (l : List Char) : Option String :=
  match l with
  | '[' :: r1 =>
    let g1 := r1.takeWhile fun c => c ≠ '=' ∧ c ≠ ']'
    if g1.isEmpty then none
    else
      match r1.drop g1.length with
      | ']' :: _ => some ⟨g1⟩
      | _ => none
  | _ => none

def searchAttrExists : List Char → Option String
  | [] => none
  | c :: rest =>
    match attrExistsAt (c :: rest) with
    | some x => some x
    | none => searchAttrExists rest

/-- `Selector._matchStringSelector` (Page.js lines 993-1036).  When the
selector is bracketed but none of the three attribute regexes matches,
control falls through to the element-name and text checks, as in the
source. -/
def matchStringSelector (n : NodeInfo) (sel : String) : Bool :=
  if jsStartsWith sel "#" then
    let id := sel.drop 1
    n.resourceId == id || jsEndsWith n.resourceId (":id/" ++ id)
  else if jsStartsWith sel "." then
    let cn := sel.drop 1
    n.className ≠ "" && jsIncludes n.className cn
  else
    let bracket : Option Bool :=
      if jsStartsWith sel "[" && jsEndsWith sel "]" then
        match searchAttrEq sel.data with
        | some (attr, v) =>
          some (match getStrField n attr with
                | some s => s == v
                | none => false)
        | none =>
          match searchAttrContains sel.data with
          | some (attr, v) =>
            some (match getStrField n attr with
                  | some s => s ≠ "" && jsIncludes s v
                  | none => false)
          | none =>
            match searchAttrExists sel.data with
            | some attr => some (fieldExists n attr)
            | none => none
      else none
    match bracket with
    | some b => b
    | none =>
      if jsIncludes sel "." then n.className == sel
      else n.text == sel || n.contentDesc == sel

/-- `Selector._matchesSelector` (Page.js lines 980-991). -/
def matchesSelector (ri : String → String → Bool) (n : NodeInfo)
    (sel : JSSelector) : Bool :=
  match sel with
  | .str s => matchStringSelector n s
  | .obj fields => matchObjectSelector ri n fields

mutual
/-- `Selector._searchElements` (Page.js lines 966-978): push the node if it
matches, then recurse into the children in document order, threading the
accumulated `results`. -/
def searchElements (ri : String → String → Bool) :
    PNode → JSSelector → List PNode → List PNode
  | .mk i cs, sel, results =>
    let results :=
      if matchesSelector ri i sel then results ++ [PNode.mk i cs] else results
    searchList ri cs sel results

/-- The `for (const child of node.children)` loop of `_searchElements`. -/
def searchList (ri : String → String → Bool) :
    List PNode → JSSelector → List PNode → List PNode
  | [], _, results => results
  | c :: cs, sel, results => searchList ri cs sel (searchElements ri c sel results)
end

mutual
/-- Pre-order (depth-first, document-order) traversal of a node tree. -/
def preorder : PNode → List PNode
  | .mk i cs => PNode.mk i cs :: preorderList cs

def preorderList : List PNode → List PNode
  | [] => []
  | c :: cs => preorder c ++ preorderList cs
end

mutual
/-- Number of elements of a raw markup tree. -/
def countRaw : RawNode → Nat
  | .mk _ cs => 1 + countRawList cs

def countRawList : List RawNode → Nat
  | [] => 0
  | c :: cs => countRaw c + countRawList cs
end

/-- The node reached from `t` by taking the `i`-th child at each step. -/
def nodeAtPath : PNode → List Nat → Option PNode
  | t, [] => some t
  | t, i :: p =>
    match t.children.get? i with
    | some c => nodeAtPath c p
    | none => none

/-- The raw element reached from `r` by taking the `i`-th child at each step. -/
def rawAtPath : RawNode → List Nat → Option RawNode
  | r, [] => some r
  | r, i :: p =>
    match r.children.get? i with
    | some c => rawAtPath c p
    | none => none

/-! ## The element handle (`src/Element.js`, class `AndroidElement`) -/

/-- The fields the `AndroidElement` constructor computes from a node data
object (Element.js lines 1-38). -/
structure AndroidElement where
  id : Nat
  tag : String
  className : String
  resourceId : String
  text : String
  contentDesc : String
  bounds : String
  index : String
  package : String
  isClickable : Bool
  isLongClickable : Bool
  isEnabled : Bool
  isSelected : Bool
  isFocused : Bool
  isFocusable : Bool
  isScrollable : Bool
  isCheckable : Bool
  isChecked : Bool
  isPassword : Bool
  isVisibleToUser : Bool
  boundsRect : Option Rect
  attrs : List (String × String)
  selector : String
deriving DecidableEq, Repr

/-- The `AndroidElement` constructor applied to a processed node's data
(`data.attributes` is always present on processed nodes, so
`data.attributes || data` reads the attribute copy; `this.boundsRect` is
re-parsed from `this.bounds`, not taken from `data.boundsRect`). -/
def mkAndroidElement (d : NodeInfo) : AndroidElement :=
  let bounds := jsOrS d.bounds "[0,0][0,0]"
  let className := jsOrS d.className (jsOrS d.tag "android.view.View")
  let resourceId := jsOrS d.resourceId ""
  let text := jsOrS d.text ""
  let contentDesc := jsOrS d.contentDesc ""
  let index := jsOrS d.index "0"
  { id := d.id
    tag := jsOrS d.tag "node"
    className := className
    resourceId := resourceId
    text := text
    contentDesc := contentDesc
    bounds := bounds
    index := index
    package := jsOrS d.package ""
    isClickable := d.clickable == "true"
    isLongClickable := d.longClickable == "true"
    isEnabled := d.enabled != "false"
    isSelected := d.selected == "true"
    isFocused := d.focused == "true"
    isFocusable := d.focusable == "true"
    isScrollable := d.scrollable == "true"
    isCheckable := d.checkable == "true"
    isChecked := d.checked == "true"
    isPassword := d.password == "true"
    isVisibleToUser := d.visibleToUser != "false"
    boundsRect := parseBoundsRect bounds
    attrs := d.attrs
    selector := jsOrS d.selector
      (generateSelector className resourceId text contentDesc index) }

/-- `AndroidElement.isVisible` (Element.js lines 174-180). -/
def elemIsVisible (e : AndroidElement) : Bool :=
  e.isVisibleToUser &&
    match e.boundsRect with
    | some r => decide (0 < r.width) && decide (0 < r.height)
    | none => false

/-- One field test of the object branch of `AndroidElement.matches`
(Element.js lines 402-446); `true` means the entry does not reject. -/
def elemMatchField (e : AndroidElement) (key : String) (v : SelVal) : Bool :=
  if key == "resourceId" || key == "id" then
    jsEqSel e.resourceId v || jsEndsWith e.resourceId (":id/" ++ jsStringOf v)
  else if key == "text" then
    match v with
    | .sregex _ t => t e.text
    | _ => jsEqSel e.text v
  else if key == "contains" || key == "textContains" then
    match v with
    | .sstr s =>
      jsIncludes (toLowerStr e.text) (toLowerStr s) ||
        jsIncludes (toLowerStr e.contentDesc) (toLowerStr s)
    | _ => false
  else if key == "className" || key == "class" then
    match v with
    | .sregex _ t => t e.className
    | _ => jsEqSel e.className v
  else if key == "contentDesc" || key == "description" then
    match v with
    | .sregex _ t => t e.contentDesc
    | _ => jsEqSel e.contentDesc v
  else if key == "clickable" then e.isClickable == jsTruthy v
  else if key == "enabled" then e.isEnabled == jsTruthy v
  else
    match assocLookup e.attrs key with
    | some s => jsEqSel s v
    | none => false

/-- `AndroidElement.matches` (Element.js lines 388-450). -/
def elementMatches (e : AndroidElement) (sel : JSSelector) : Bool :=
  match sel with
  | .str s =>
    if jsStartsWith s "#" then
      let id := s.drop 1
      e.resourceId == id || jsEndsWith e.resourceId (":id/" ++ id)
    else if jsStartsWith s "." then
      jsIncludes e.className (s.drop 1)
    else e.text == s || e.contentDesc == s
  | .obj fields => fields.all fun kv => elemMatchField e kv.1 kv.2

/-- `Selector.findElements` (Page.js lines 901-905), over a given hierarchy
root (the capture collaborator and cache are modelled separately). -/
def findElements (ri : String → String → Bool) (root : PNode)
    (sel : JSSelector) : List AndroidElement :=
  (searchElements ri root sel []).map fun d => mkAndroidElement d.info

/-- `Selector.findElement` (Page.js lines 896-899):
`elements.length > 0 ? elements[0] : null`. -/
def findElement (ri : String → String → Bool) (root : PNode)
    (sel : JSSelector) : Option AndroidElement :=
  (findElements ri root sel).head?

/-! ## The snapshot parser pipeline (`src/utils/xml-parser.js`)

The xml2js library (an external dependency, not part of this repository) is
embedded as a fuel-bounded recursive-descent parser for the markup subset
the dumps use: an optional declaration, elements with quoted attributes,
text content (skipped; xml2js character children are never named `node`),
and basic entity decoding.  `parseUIHierarchy` only distinguishes a
successful parse from a thrown error, so its claims are robust to the
details of this embedding. -/

def isWsChar (c : Char) : Bool :=
  c = ' ' || c = '\t' || c = '\n' || c = '\r'

def skipWs (l : List Char) : List Char := l.dropWhile isWsChar

def isNameChar (c : Char) : Bool :=
  c.isAlphanum || c = '-' || c = '_' || c = ':' || c = '.'

/-- Decoding of the five predefined entities in attribute values. -/
def decodeEntities (l : List Char) : List Char :=
  match l with
  | [] => []
  | '&' :: rest =>
    if "amp;".data.isPrefixOf rest then '&' :: decodeEntities (rest.drop 4)
    else if "lt;".data.isPrefixOf rest then '<' :: decodeEntities (rest.drop 3)
    else if "gt;".data.isPrefixOf rest then '>' :: decodeEntities (rest.drop 3)
    else if "quot;".data.isPrefixOf rest then '"' :: decodeEntities (rest.drop 5)
    else if "apos;".data.isPrefixOf rest then '\'' :: decodeEntities (rest.drop 5)
    else '&' :: decodeEntities rest
  | c :: rest => c :: decodeEntities rest
termination_by l.length
decreasing_by all_goals simp [List.length_drop] <;> omega

/-- A parsed markup element: tag name, attributes, child elements. -/
inductive XElem where
  | mk (name : String) (attrs : List (String × String)) (children : List XElem)

/-- Attribute list of a tag: `name="value"` or `name='value'` pairs. -/
def parseAttrsX (fuel : Nat) (l : List Char) :
    Except String (List (String × String) × List Char) :=
  match fuel with
  | 0 => .error "fuel exhausted"
  | fuel + 1 =>
    let l := skipWs l
    match l with
    | c :: _ =>
      if isNameChar c then
        let nm := l.takeWhile isNameChar
        let r := skipWs (l.drop nm.length)
        match r with
        | '=' :: r2 =>
          let r2 := skipWs r2
          match r2 with
          | q :: r3 =>
            if q = '"' ∨ q = '\'' then
              let v := r3.takeWhile (· ≠ q)
              match r3.drop v.length with
              | _ :: r4 =>
                match parseAttrsX fuel r4 with
                | .ok (rest, r5) => .ok ((⟨nm⟩, ⟨decodeEntities v⟩) :: rest, r5)
                | .error e => .error e
              | [] => .error "unterminated attribute value"
            else .error "expected quoted attribute value"
          | [] => .error "unexpected end of input in attribute"
        | _ => .error "expected = after attribute name"
      else .ok ([], l)
    | [] => .ok ([], l)

mutual
/-- One element: `<name attrs/>` or `<name attrs> children </name>`. -/
def parseElemX (fuel : Nat) (l : List Char) : Except String (XElem × List Char) :=
  match fuel with
  | 0 => .error "fuel exhausted"
  | fuel + 1 =>
    match l with
    | '<' :: r =>
      let nm := r.takeWhile isNameChar
      if nm.isEmpty then .error "expected element name"
      else
        match parseAttrsX fuel (r.drop nm.length) with
        | .error e => .error e
        | .ok (attrs, r2) =>
          match skipWs r2 with
          | '/' :: '>' :: r3 => .ok (.mk ⟨nm⟩ attrs [], r3)
          | '>' :: r3 =>
            match parseChildrenX fuel (⟨nm⟩ : String) r3 with
            | .error e => .error e
            | .ok (cs, r4) => .ok (.mk ⟨nm⟩ attrs cs, r4)
          | _ => .error "malformed tag"
    | _ => .error "expected opening tag"

/-- Content of an element up to its matching closing tag. -/
def parseChildrenX (fuel : Nat) (closeName : String) (l : List Char) :
    Except String (List XElem × List Char) :=
  match fuel with
  | 0 => .error "fuel exhausted"
  | fuel + 1 =>
    match l with
    | [] => .error "unexpected end of input: unclosed element"
    | '<' :: '/' :: r =>
      let nm := r.takeWhile isNameChar
      if (⟨nm⟩ : String) = closeName then
        match skipWs (r.drop nm.length) with
        | '>' :: r2 => .ok ([], r2)
        | _ => .error "malformed closing tag"
      else .error "mismatched closing tag"
    | '<' :: r =>
      match parseElemX fuel ('<' :: r) with
      | .error e => .error e
      | .ok (e, r2) =>
        match parseChildrenX fuel closeName r2 with
        | .ok (cs, r3) => .ok (e :: cs, r3)
        | .error er => .error er
    | _ :: r => parseChildrenX fuel closeName r
end

/-- Skip past `?>` of the declaration. -/
def dropToDeclEnd : List Char → Except String (List Char)
  | [] => .error "unterminated declaration"
  | '?' :: '>' :: r => .ok r
  | _ :: r => dropToDeclEnd r

/-- The whole document: optional declaration, one root element, trailing
whitespace only. -/
def parseXMLDocument (s : String) : Except String XElem :=
  let l := skipWs s.data
  match (if "<?xml".data.isPrefixOf l then dropToDeclEnd (l.drop 5) else .ok l) with
  | .error e => .error e
  | .ok l2 =>
    match parseElemX ((s.length + 16) * 2) (skipWs l2) with
    | .error e => .error e
    | .ok (e, rest) =>
      if (skipWs rest).isEmpty then .ok e
      else .error "non-whitespace after document"

mutual
/-- The raw tree `processNode` walks: `node.$` is the attribute map and
`node.node` the array of children tagged `node`. -/
def toRawNode : XElem → RawNode
  | .mk _ attrs children => RawNode.mk attrs (toRawChildren children)

def toRawChildren : List XElem → List RawNode
  | [] => []
  | (.mk nm attrs cs) :: rest =>
    if nm = "node" then toRawNode (.mk nm attrs cs) :: toRawChildren rest
    else toRawChildren rest
end

/-- Characters removed by the control-character cleanup
(`[\x00-\x08\x0B\x0C\x0E-\x1F\x7F]`, with `\0` removed by the preceding
replace). -/
def isRemovedCtrl (c : Char) : Bool :=
  c.toNat ≤ 8 || c.toNat = 11 || c.toNat = 12 ||
    (14 ≤ c.toNat && c.toNat ≤ 31) || c.toNat = 127

def isEntityChar (c : Char) : Bool := c.isAlphanum || c = '#'

/-- `replace(/&(?![a-zA-Z0-9#]{1,8};)/g, '&amp;')`: the lookahead succeeds
exactly when the maximal run of entity characters after the `&` has length
1..8 and is followed by `;` (the class excludes `;`, so no other
backtracking split can succeed). -/
def fixAmps : List Char → List Char
  | [] => []
  | '&' :: rest =>
    let run := (rest.takeWhile isEntityChar).length
    if 1 ≤ run ∧ run ≤ 8 ∧ rest.get? run = some ';' then
      '&' :: fixAmps rest
    else '&' :: 'a' :: 'm' :: 'p' :: ';' :: fixAmps rest
  | c :: rest => c :: fixAmps rest

/-- JS `String.prototype.trim` (the dumps are ASCII). -/
def trimStr (s : String) : String :=
  ⟨((s.data.dropWhile isWsChar).reverse.dropWhile isWsChar).reverse⟩

/-- Leftmost occurrence of `<?xml` or `<hierarchy` (the
`/<\?xml|<hierarchy/` preamble search). -/
def findXmlStart : List Char → Option (List Char)
  | [] => none
  | c :: rest =>
    if "<?xml".data.isPrefixOf (c :: rest) ||
        "<hierarchy".data.isPrefixOf (c :: rest) then some (c :: rest)
    else findXmlStart rest

/-- `cleanXMLString` (xml-parser.js lines 57-82).  The `typeof` guard
cannot fire for a `String` input, but the emptiness guard throws, modelled
as `Except.error`. -/
def cleanXMLString (s : String) : Except String String :=
  if s = "" then .error "Invalid XML string provided"
  else
    let cleaned := trimStr s
    let cleaned :=
      match findXmlStart cleaned.data with
      | some l => l
      | none => cleaned.data
    let cleaned := cleaned.filter fun c => !(isRemovedCtrl c)
    let cleaned : String := ⟨fixAmps cleaned⟩
    .ok (if jsStartsWith cleaned "<hierarchy" then
          "<?xml version=\"1.0\" encoding=\"UTF-8\"?>" ++ cleaned
        else cleaned)

/-- The degraded single-node snapshot returned by the catch block of
`parseUIHierarchy` (xml-parser.js lines 42-53).  The JS literal carries
only `id`, `tag`, `class`, `resource-id`, `text`, `content-desc`, `bounds`,
`clickable`, `enabled` and `children`; every other key is `undefined` and
is modelled as the empty string (resp. `none` / `[]`), which the matchers
treat identically for every comparison exercised here. -/
def fallbackNode : PNode :=
  PNode.mk
    { id := 0
      tag := "hierarchy"
      className := "android.widget.FrameLayout"
      resourceId := ""
      text := "UI Parsing Failed - Please refresh"
      contentDesc := "UI hierarchy could not be parsed"
      bounds := "[0,0][1080,1920]"
      index := ""
      package := ""
      clickable := "false"
      longClickable := ""
      enabled := "true"
      selected := ""
      focused := ""
      focusable := ""
      scrollable := ""
      checkable := ""
      checked := ""
      password := ""
      visibleToUser := ""
      attrs := []
      boundsRect := none
      selector := "" }
    []

/-- `parseUIHierarchy` (xml-parser.js lines 3-55): clean, parse, require a
`hierarchy` root with at least one `node` child, process — and on any
thrown error return the degraded fallback snapshot. -/
def parseUIHierarchy (s : String) : PNode :=
  match cleanXMLString s with
  | .error _ => fallbackNode
  | .ok cleaned =>
    match parseXMLDocument cleaned with
    | .error _ => fallbackNode
    | .ok (.mk nm _ children) =>
      if nm = "hierarchy" then
        match toRawChildren children with
        | r :: _ => processNode r 0
        | [] => fallbackNode
      else fallbackNode

/-! ## The snapshot cache (`AndroidDevice.getUIHierarchy`, Page.js 538-547) -/

/-- The per-device cache state: `this._uiHierarchy` and
`this._lastUIUpdate` (initially `null` / `0`). -/
structure UIState where
  uiHierarchy : Option PNode
  lastUIUpdate : Int

/-- The refresh test of `getUIHierarchy`:
`!this._uiHierarchy || forceRefresh || (now - this._lastUIUpdate) > 1000`. -/
def refreshCond (st : UIState) (now : Int) (force : Bool) : Bool :=
  st.uiHierarchy.isNone || force || decide (now - st.lastUIUpdate > 1000)

/-- `AndroidDevice.getUIHierarchy(forceRefresh)`: `now` is the clock
reading and `capture` the raw dump the adb collaborator would return if
invoked.  The first component is the returned snapshot, the second the
updated cache state. -/
def getUIHierarchy (st : UIState) (now : Int) (force : Bool)
    (capture : String) : PNode × UIState :=
  match st.uiHierarchy with
  | none =>
    let h := parseUIHierarchy capture
    (h, { uiHierarchy := some h, lastUIUpdate := now })
  | some cached =>
    if force || decide (now - st.lastUIUpdate > 1000) then
      let h := parseUIHierarchy capture
      (h, { uiHierarchy := some h, lastUIUpdate := now })
    else (cached, st)

/-! ## The synchronization primitive (`Page.waitForSelector`, Page.js 79-109)

Discrete-time model: only the explicit `device.wait(100)` advances the
clock (queries, captures and the periodic forced refresh are charged zero
time).  `hs t` is the hierarchy the cache serves at elapsed time `t`, so
the periodic `getUIHierarchy(true)` refresh is part of the oracle `hs`. -/

/-- The options object of `waitForSelector`; absent properties are
`undefined`. -/
structure WaitOptions where
  timeout? : Option Nat := none
  visible? : Option Bool := none
  hidden? : Option Bool := none

/-- `options.timeout || 30000` (`0` is falsy in JS). -/
def effTimeout (o : WaitOptions) : Nat :=
  match o.timeout? with
  | some t => if t = 0 then 30000 else t
  | none => 30000

/-- `options.visible !== false`. -/
def effVisible (o : WaitOptions) : Bool := o.visible? != some false

/-- `options.hidden === true`. -/
def effHidden (o : WaitOptions) : Bool := o.hidden? == some true

/-- The `Error` thrown after the loop: its message embeds the stringified
original selector and the configured timeout. -/
structure TimeoutError where
  selector : JSSelector
  timeoutMs : Nat

/-- The body of one polling iteration (the `try` block): find the element
and apply the visible/hidden guard; `some` means return it. -/
def tryAccept (ri : String → String → Bool) (root : PNode) (sel : JSSelector)
    (vis hid : Bool) : Option AndroidElement :=
  match findElement ri root sel with
  | some el =>
    if hid then
      if !(elemIsVisible el) then some el else none
    else if !vis || elemIsVisible el then some el else none
  | none => none

/-- The `while (Date.now() - startTime < timeout)` loop with its 100 ms
poll sleep; returns the outcome together with the elapsed time at which it
returned or threw. -/
def waitLoop (ri : String → String → Bool) (hs : Nat → PNode)
    (sel : JSSelector) (vis hid : Bool) (timeout elapsed : Nat) :
    Except TimeoutError AndroidElement × Nat :=
  if _h : elapsed < timeout then
    match tryAccept ri (hs elapsed) sel vis hid with
    | some el => (Except.ok el, elapsed)
    | none => waitLoop ri hs sel vis hid timeout (elapsed + 100)
  else (Except.error ⟨sel, timeout⟩, elapsed)
termination_by timeout - elapsed
decreasing_by omega

/-- `Page.waitForSelector(selector, options)`. -/
def waitForSelector (ri : String → String → Bool) (hs : Nat → PNode)
    (sel : JSSelector) (opts : WaitOptions) :
    Except TimeoutError AndroidElement × Nat :=
  waitLoop ri hs sel (effVisible opts) (effHidden opts) (effTimeout opts) 0

/-! ## The path-query predicate (`Selector._evaluatePredicate`, Page.js
1206-1244) -/

/-- JS `String(i)` for a possibly negative integer. -/
def intToStr (i : Int) : String :=
  if i < 0 then "-" ++ natToStr i.natAbs else natToStr i.toNat

/-- Match of `key['"]([^'"]+)['"]` (e.g. `key` = `@text=`) anchored at the
head of the list; the value class excludes both quotes, so the JS
backtracking is deterministic and either quote may close the value. -/
def xpathValueAt (key : List Char) (l : List Char) : Option String :=
  if key.isPrefixOf l then
    match l.drop key.length with
    | q :: r =>
      if q = '"' ∨ q = '\'' then
        let g := r.takeWhile fun c => c ≠ '"' ∧ c ≠ '\''
        if g.isEmpty then none
        else
          match r.drop g.length with
          | c2 :: _ => if c2 = '"' ∨ c2 = '\'' then some ⟨g⟩ else none
          | [] => none
      else none
    | [] => none
  else none

def searchXpathValue (key : List Char) : List Char → Option String
  | [] => none
  | c :: rest =>
    match xpathValueAt key (c :: rest) with
    | some v => some v
    | none => searchXpathValue key rest

/-- `Selector._evaluatePredicate`: the four `includes`-guarded attribute
comparisons (falling through when the inner regex fails), then the bare
`/^\d+$/` positional predicate comparing `node.index` against
`String(parseInt(predicate) - 1)`, else `false`. -/
def evaluatePredicate (n : NodeInfo) (p : String) : Bool :=
  let s1 : Option Bool :=
    if jsIncludes p "@text=" then
      match searchXpathValue "@text=".data p.data with
      | some v => some (n.text == v)
      | none => none
    else none
  match s1 with
  | some b => b
  | none =>
    let s2 : Option Bool :=
      if jsIncludes p "@resource-id=" then
        match searchXpathValue "@resource-id=".data p.data with
        | some v => some (n.resourceId == v)
        | none => none
      else none
    match s2 with
    | some b => b
    | none =>
      let s3 : Option Bool :=
        if jsIncludes p "@content-desc=" then
          match searchXpathValue "@content-desc=".data p.data with
          | some v => some (n.contentDesc == v)
          | none => none
        else none
      match s3 with
      | some b => b
      | none =>
        let s4 : Option Bool :=
          if jsIncludes p "@clickable=" then
            match searchXpathValue "@clickable=".data p.data with
            | some v => some (n.clickable == v)
            | none => none
          else none
        match s4 with
        | some b => b
        | none =>
          if !p.data.isEmpty && p.data.all Char.isDigit then
            n.index == intToStr ((digitsToNat p.data : Int) - 1)
          else false

/-! ## Theorems -/

/-- A trivial regex-oracle instantiation for concrete evaluations. -/
def noRegex : String → String → Bool := fun _ _ => false

/-- C2: the predicate selector with the single entry `resourceId : x`
(`x` a string) matches a node exactly when the node's resource id equals
`x` or ends with the suffix `:id/x`, and matches nothing else. -/
theorem resourceId_suffix_rule (ri : String → String → Bool) (n : NodeInfo)
    (x : String) :
    matchObjectSelector ri n [("resourceId", SelVal.sstr x)] = true ↔
      n.resourceId = x ∨ (":id/" ++ x).data <:+ n.resourceId.data := by
  have h : matchObjectSelector ri n [("resourceId", SelVal.sstr x)]
      = ((n.resourceId == x || jsEndsWith n.resourceId (":id/" ++ x)) && true) := rfl
  rw [h]
  simp [jsEndsWith, List.isSuffixOf_iff_suffix]

/-- C5 (code bug): the node whose `text` attribute is `"hello"` contains
`"ell"`, yet the shorthand selector `[text*=ell]` rejects it: the
`[attr=value]` regex `\[([^=]+)=...` fires first, its `[^=]+` class
swallowing the `*`, so the code compares the nonexistent attribute
`text*` against `"ell"` and the dedicated `[attr*=value]` branch below it
is unreachable. -/
theorem attr_contains_selector_dead (ri : String → String → Bool) :
    (processInfo [("text", "hello")] 0).text = "hello" ∧
    jsIncludes (processInfo [("text", "hello")] 0).text "ell" = true ∧
    searchAttrEq "[text*=ell]".data = some ("text*", "ell") ∧
    matchStringSelector (processInfo [("text", "hello")] 0) "[text*=ell]" = false ∧
    matchesSelector ri (processInfo [("text", "hello")] 0)
      (JSSelector.str "[text*=ell]") = false :=
  ⟨rfl, rfl, rfl, rfl, rfl⟩

/-- C4 (counterexample): a well-formed dump whose single element carries
the explicit attribute `class=""` does not round-trip verbatim: JS `||`
treats the present-but-empty value as absent and substitutes the default
`android.view.View`. -/
theorem processNode_empty_attr_not_verbatim :
    assocLookup (RawNode.mk [("class", "")] []).attrs "class" = some "" ∧
    (processNode (RawNode.mk [("class", "")] []) 0).info.className
      = "android.view.View" ∧
    (processNode (RawNode.mk [("class", "")] []) 0).info.className ≠ "" :=
  ⟨rfl, rfl, by decide⟩

/-- C10 (counterexample): on the perfectly ordinary node with flag string
`clickable="false"` and the selector `{clickable: "false"}` (string value),
the query engine's object matcher accepts (`String("false") = "false"`)
while the element handle's `matches` rejects (`Boolean("false")` is `true`,
`isClickable` is `false`), so the two matchers do not yield the same
decision. -/
theorem matches_vs_objectSelector_diverge :
    matchObjectSelector noRegex (processInfo [] 0)
      [("clickable", SelVal.sstr "false")] = true ∧
    elementMatches (mkAndroidElement (processInfo [] 0))
      (JSSelector.obj [("clickable", SelVal.sstr "false")]) = false :=
  ⟨rfl, rfl⟩

/-- C7: `getUIHierarchy(forceRefresh)` re-captures and replaces the cached
snapshot exactly when no snapshot is cached, `forceRefresh` is set, or more
than the 1000 ms TTL has elapsed since the last capture; otherwise it
returns the cached snapshot unchanged, independent of whatever the capture
collaborator would have produced (i.e. without invoking it). -/
theorem cache_refresh_rule (st : UIState) (now : Int) (force : Bool)
    (xml : String) :
    (refreshCond st now force = true →
      getUIHierarchy st now force xml =
        (parseUIHierarchy xml,
          { uiHierarchy := some (parseUIHierarchy xml), lastUIUpdate := now })) ∧
    (refreshCond st now force = false →
      ∃ cached, st.uiHierarchy = some cached ∧
        ∀ xml', getUIHierarchy st now force xml' = (cached, st)) := by
  cases hst : st.uiHierarchy with
  | none =>
    refine ⟨fun _ => ?_, fun hcond => ?_⟩
    · simp [getUIHierarchy, hst]
    · simp [refreshCond, hst] at hcond
  | some cached =>
    have hr : refreshCond st now force
        = (force || decide (now - st.lastUIUpdate > 1000)) := by
      simp [refreshCond, hst]
    refine ⟨fun hcond => ?_, fun hcond => ?_⟩
    · rw [hr] at hcond
      simp [getUIHierarchy, hst, hcond]
    · rw [hr] at hcond
      refine ⟨cached, rfl, fun xml' => ?_⟩
      simp only [Bool.or_eq_false_iff] at hcond
      simp [getUIHierarchy, hst, hcond.1, hcond.2]

/-- C7 witness: an empty cache forces a capture; a fresh cache returns the
cached snapshot unchanged for any collaborator output. -/
theorem cache_refresh_rule_witness :
    (getUIHierarchy { uiHierarchy := none, lastUIUpdate := 0 } 0 false "" =
      (parseUIHierarchy "",
        { uiHierarchy := some (parseUIHierarchy ""), lastUIUpdate := 0 })) ∧
    (∃ cached,
      ({ uiHierarchy := some fallbackNode, lastUIUpdate := 0 } : UIState).uiHierarchy
        = some cached ∧
      ∀ xml', getUIHierarchy { uiHierarchy := some fallbackNode, lastUIUpdate := 0 }
          500 false xml'
        = (cached, { uiHierarchy := some fallbackNode, lastUIUpdate := 0 })) :=
  ⟨(cache_refresh_rule { uiHierarchy := none, lastUIUpdate := 0 } 0 false "").1 rfl,
   (cache_refresh_rule { uiHierarchy := some fallbackNode, lastUIUpdate := 0 }
      500 false "").2 rfl⟩

/-- An all-digit string cannot contain a substring holding a non-digit. -/
theorem listContains_false_of_digits (l sub : List Char)
    (h : l.all Char.isDigit = true) (c : Char) (hc : c ∈ sub)
    (hcd : c.isDigit = false) : listContains l sub = false := by
  induction l with
  | nil =>
    cases sub with
    | nil => simp at hc
    | cons a t => simp [listContains]
  | cons a t ih =>
    have ha : Char.isDigit a = true ∧ t.all Char.isDigit = true := by
      simpa using h
    have hpre : sub.isPrefixOf (a :: t) = false := by
      cases hp : sub.isPrefixOf (a :: t) with
      | false => rfl
      | true =>
        have hsp : sub <+: (a :: t) := (List.isPrefixOf_iff_prefix).1 hp
        have hmem : c ∈ a :: t := hsp.subset hc
        have hdig : c.isDigit = true := by
          have hall : ∀ x ∈ a :: t, Char.isDigit x = true := by
            rw [← List.all_eq_true]; simpa using h
          exact hall c hmem
        rw [hdig] at hcd; cases hcd
    simp [listContains, hpre, ih ha.2]

/-- C6: a bare all-digit path-query predicate of value `v ≥ 1` accepts a
node exactly when the node's `index` attribute equals the decimal
representation of `v - 1` (1-based in the query, 0-based in the stored
attribute). -/
theorem positional_predicate_one_based (n : NodeInfo) (p : String) (v : Nat)
    (hne : p.data ≠ []) (hd : p.data.all Char.isDigit = true)
    (hv : digitsToNat p.data = v) (hpos : 0 < v) :
    evaluatePredicate n p = (n.index == natToStr (v - 1)) := by
  have h1 : jsIncludes p "@text=" = false :=
    listContains_false_of_digits _ _ hd '@' (by decide) (by decide)
  have h2 : jsIncludes p "@resource-id=" = false :=
    listContains_false_of_digits _ _ hd '@' (by decide) (by decide)
  have h3 : jsIncludes p "@content-desc=" = false :=
    listContains_false_of_digits _ _ hd '@' (by decide) (by decide)
  have h4 : jsIncludes p "@clickable=" = false :=
    listContains_false_of_digits _ _ hd '@' (by decide) (by decide)
  have hemp : p.data.isEmpty = false := by
    cases hp : p.data with
    | nil => exact absurd hp hne
    | cons a t => rfl
  have hcast : ((digitsToNat p.data : Int) - 1) = ((v - 1 : Nat) : Int) := by
    rw [hv]; omega
  have hnn : ¬ (((v - 1 : Nat) : Int) < 0) :=
    Int.not_lt.mpr (Int.natCast_nonneg _)
  simp only [evaluatePredicate, h1, h2, h3, h4, Bool.false_eq_true, if_false,
    hemp, Bool.not_false, hd, Bool.and_self, if_true, hcast]
  simp [intToStr, hnn]

/-- C6 witness: predicate `"2"` against a node whose stored index is `"1"`. -/
theorem positional_predicate_one_based_witness :
    evaluatePredicate (processInfo [("index", "1")] 0) "2"
      = ((processInfo [("index", "1")] 0).index == natToStr 1) :=
  positional_predicate_one_based (processInfo [("index", "1")] 0) "2" 2
    (by decide) (by decide) (by decide) (by decide)

/-- C1: for every input string the parse pipeline either succeeds (the
result is `processNode` of some raw tree) or returns the degraded
single-node snapshot, whose root carries the diagnostic text/description
markers and has no children; in particular the empty input, an input whose
root tag is not `hierarchy`, and an input truncated mid-element all yield
the degraded snapshot rather than an error. -/
theorem parse_never_raises :
    (∀ s : String, parseUIHierarchy s = fallbackNode ∨
      ∃ raw : RawNode, parseUIHierarchy s = processNode raw 0) ∧
    fallbackNode.info.text = "UI Parsing Failed - Please refresh" ∧
    fallbackNode.info.contentDesc = "UI hierarchy could not be parsed" ∧
    fallbackNode.children = [] ∧
    parseUIHierarchy "" = fallbackNode ∧
    parseUIHierarchy "<foo><node text=\"x\"/></foo>" = fallbackNode ∧
    parseUIHierarchy "<hierarchy><node text=\"x\"" = fallbackNode := by
  refine ⟨?_, rfl, rfl, rfl, rfl, rfl, rfl⟩
  intro s
  unfold parseUIHierarchy
  rcases hc : cleanXMLString s with e | cleaned
  · exact Or.inl rfl
  · simp only []
    rcases hx : parseXMLDocument cleaned with e | root
    · exact Or.inl rfl
    · obtain ⟨nm, attrs, children⟩ := root
      by_cases hnm : nm = "hierarchy"
      · rcases hr : toRawChildren children with _ | ⟨r, rest⟩
        · simp [hnm, hr]
        · simp only [hnm, hr, if_pos rfl]
          exact Or.inr ⟨r, rfl⟩
      · simp [hnm]

/-- If no poll ever accepts, the wait loop started at `e0 < timeout + 100`
throws the timeout error carrying the original selector, at an elapsed time
in `[timeout, timeout + 100)`. -/
theorem waitLoop_never_succeeds (ri : String → String → Bool)
    (hs : Nat → PNode) (sel : JSSelector) (vis hid : Bool) (timeout : Nat)
    (hnever : ∀ t, tryAccept ri (hs t) sel vis hid = none) :
    ∀ m e0, timeout - e0 = m → e0 < timeout + 100 →
      ∃ f, waitLoop ri hs sel vis hid timeout e0
          = (Except.error ⟨sel, timeout⟩, f) ∧ timeout ≤ f ∧ f < timeout + 100 := by
  intro m
  induction m using Nat.strong_induction_on with
  | _ m ih =>
    intro e0 hm he
    by_cases hlt : e0 < timeout
    · rw [waitLoop, dif_pos hlt]
      simp only [hnever e0]
      exact ih (timeout - (e0 + 100)) (by omega) (e0 + 100) rfl (by omega)
    · rw [waitLoop, dif_neg hlt]
      exact ⟨e0, rfl, by omega, he⟩

/-- C8: against a selector whose condition is never satisfied,
`waitForSelector` fails with a timeout error that carries the original
selector, no earlier than the effective timeout `T` and no later than
`T + P` where `P = 100` ms is the source's fixed poll interval (time being
charged only to the poll sleeps). -/
theorem waitForSelector_timeout_bound (ri : String → String → Bool)
    (hs : Nat → PNode) (sel : JSSelector) (opts : WaitOptions)
    (hnever : ∀ t,
      tryAccept ri (hs t) sel (effVisible opts) (effHidden opts) = none) :
    ∃ f, waitForSelector ri hs sel opts
        = (Except.error ⟨sel, effTimeout opts⟩, f) ∧
      effTimeout opts ≤ f ∧ f ≤ effTimeout opts + 100 := by
  obtain ⟨f, hf, hf1, hf2⟩ :=
    waitLoop_never_succeeds ri hs sel (effVisible opts) (effHidden opts)
      (effTimeout opts) hnever (effTimeout opts - 0) 0 rfl (by omega)
  exact ⟨f, hf, hf1, by omega⟩

/-- C8 witness: a constant degraded hierarchy never matches
`{text: "nope"}`; with a 250 ms timeout the failure lands in `[250, 350]`
and carries the selector. -/
theorem waitForSelector_timeout_bound_witness :
    ∃ f, waitForSelector noRegex (fun _ => fallbackNode)
          (JSSelector.obj [("text", SelVal.sstr "nope")])
          { timeout? := some 250 }
        = (Except.error
            ⟨JSSelector.obj [("text", SelVal.sstr "nope")], 250⟩, f) ∧
      250 ≤ f ∧ f ≤ 350 :=
  waitForSelector_timeout_bound noRegex (fun _ => fallbackNode)
    (JSSelector.obj [("text", SelVal.sstr "nope")])
    { timeout? := some 250 } (fun _ => rfl)

mutual
/-- `_searchElements` appends exactly the pre-order matches to its
accumulator. -/
theorem searchElements_spec (ri : String → String → Bool) (sel : JSSelector)
    (n : PNode) (res : List PNode) :
    searchElements ri n sel res
      = res ++ (preorder n).filter (fun m => matchesSelector ri m.info sel) := by
  obtain ⟨i, cs⟩ := n
  rw [searchElements, searchList_spec ri sel cs, preorder]
  by_cases hm : matchesSelector ri i sel
  · simp [hm, PNode.info, List.filter_cons]
  · simp [hm, PNode.info, List.filter_cons]

/-- The child loop of `_searchElements`, over a list of subtrees. -/
theorem searchList_spec (ri : String → String → Bool) (sel : JSSelector)
    (cs : List PNode) (res : List PNode) :
    searchList ri cs sel res
      = res ++ (preorderList cs).filter (fun m => matchesSelector ri m.info sel) := by
  cases cs with
  | nil => simp [searchList, preorderList]
  | cons c cs' =>
    rw [searchList, searchElements_spec ri sel c res, searchList_spec ri sel cs',
      preorderList]
    simp [List.filter_append]
end

/-- C3: `findElements` returns the matching nodes (as element handles) in
pre-order — depth-first, parent before children, children in document
order — and `findElement` returns the first pre-order match, or nothing
when there is none. -/
theorem find_results_preorder (ri : String → String → Bool) (root : PNode)
    (sel : JSSelector) :
    findElements ri root sel
      = ((preorder root).filter (fun m => matchesSelector ri m.info sel)).map
          (fun d => mkAndroidElement d.info) ∧
    findElement ri root sel
      = (((preorder root).filter (fun m => matchesSelector ri m.info sel)).map
          (fun d => mkAndroidElement d.info)).head? := by
  have h : findElements ri root sel
      = ((preorder root).filter (fun m => matchesSelector ri m.info sel)).map
          (fun d => mkAndroidElement d.info) := by
    unfold findElements
    rw [searchElements_spec]
    simp
  exact ⟨h, by rw [findElement, h]⟩

/-- The `j`-th processed child carries identifier `k + j` where `k` is the
starting child identifier. -/
theorem processChildren_get (cs : List RawNode) (k j : Nat) :
    (processChildren cs k).get? j
      = (cs.get? j).map fun c => processNode c (k + j) := by
  induction cs generalizing k j with
  | nil => simp [processChildren]
  | cons c cs' ih =>
    cases j with
    | zero => simp [processChildren]
    | succ j' =>
      have harith : k + 1 + j' = k + (j' + 1) := by omega
      simp only [processChildren, List.get?_cons_succ, ih (k + 1) j', harith]

/-- C9: the `parentId × 1000 + offset` identifier scheme collides: in the
processed tree of a well-formed dump whose root has 1001 children, the
first of which has a child of its own, the node at path `[0, 0]` and the
distinct node at path `[1000]` are both assigned identifier 1001. -/
theorem node_id_collision :
    ((nodeAtPath
        (processNode (RawNode.mk []
          (RawNode.mk [] [RawNode.mk [] []] ::
            List.replicate 1000 (RawNode.mk [] []))) 0)
        [0, 0]).map fun t => t.info.id) = some 1001 ∧
    ((nodeAtPath
        (processNode (RawNode.mk []
          (RawNode.mk [] [RawNode.mk [] []] ::
            List.replicate 1000 (RawNode.mk [] []))) 0)
        [1000]).map fun t => t.info.id) = some 1001 ∧
    ([0, 0] : List Nat) ≠ [1000] := by
  have h1 : (processNode (RawNode.mk []
        (RawNode.mk [] [RawNode.mk [] []] ::
          List.replicate 1000 (RawNode.mk [] []))) 0).children.get? 0
      = some (processNode (RawNode.mk [] [RawNode.mk [] []]) 1) := by
    rw [processNode, PNode.children, processChildren_get]
    rfl
  have h2 : (processNode (RawNode.mk [] [RawNode.mk [] []]) 1).children.get? 0
      = some (processNode (RawNode.mk [] []) 1001) := by
    rw [processNode, PNode.children, processChildren_get]
    rfl
  have h3 : (processNode (RawNode.mk []
        (RawNode.mk [] [RawNode.mk [] []] ::
          List.replicate 1000 (RawNode.mk [] []))) 0).children.get? 1000
      = some (processNode (RawNode.mk [] []) 1001) := by
    rw [processNode, PNode.children, processChildren_get]
    have hrep : (RawNode.mk [] [RawNode.mk [] []] ::
        List.replicate 1000 (RawNode.mk [] [])).get? 1000
        = some (RawNode.mk [] []) := by
      rw [List.get?_cons_succ, List.get?_eq_getElem?, List.getElem?_replicate]
      simp
    rw [hrep]
    rfl
  refine ⟨?_, ?_, by decide⟩
  · simp only [nodeAtPath, h1, h2]
    rfl
  · simp only [nodeAtPath, h3]
    rfl

/-- The attribute keys `processNode` copies into dedicated fields. -/
def dumpKeys : List String :=
  ["class", "resource-id", "text", "content-desc", "bounds", "index",
   "package", "clickable", "long-clickable", "enabled", "selected",
   "focused", "focusable", "scrollable", "checkable", "checked",
   "password", "visible-to-user"]

/-- The documented default of each dump attribute (the `|| default`
fallbacks of `processNode`): `enabled` and `visible-to-user` default to
`"true"`, every other boolean flag to `"false"`. -/
def defaultFor (key : String) : String :=
  if key = "class" then "android.view.View"
  else if key = "bounds" then "[0,0][0,0]"
  else if key = "index" then "0"
  else if key = "enabled" then "true"
  else if key = "visible-to-user" then "true"
  else if key = "clickable" ∨ key = "long-clickable" ∨ key = "selected" ∨
      key = "focused" ∨ key = "focusable" ∨ key = "scrollable" ∨
      key = "checkable" ∨ key = "checked" ∨ key = "password" then "false"
  else ""

/-- The value the round-trip property expects for a field: the source
attribute verbatim when present, the documented default otherwise. -/
def attrOrDefault (attrs : List (String × String)) (key : String) : String :=
  match assocLookup attrs key with
  | some v => v
  | none => defaultFor key

/-- A successful association-list lookup returns a stored binding. -/
theorem assocLookup_mem (l : List (String × String)) (k v : String)
    (h : assocLookup l k = some v) : (k, v) ∈ l := by
  induction l with
  | nil => simp [assocLookup] at h
  | cons kv rest ih =>
    obtain ⟨k', v'⟩ := kv
    by_cases hk : k' = k
    · subst hk
      simp [assocLookup] at h
      simp [h]
    · simp [assocLookup, hk] at h
      exact List.mem_cons_of_mem _ (ih h)

/-- On nodes whose present attributes are non-empty, every dedicated field
of `processInfo` is the source attribute verbatim or its default. -/
theorem processInfo_field (attrs : List (String × String)) (id : Nat)
    (hgood : ∀ kv ∈ attrs, kv.2 ≠ "") :
    ∀ key ∈ dumpKeys,
      getStrField (processInfo attrs id) key = some (attrOrDefault attrs key) := by
  have hOr : ∀ k, jsOr (assocLookup attrs k) (defaultFor k) = attrOrDefault attrs k := by
    intro k
    rcases h : assocLookup attrs k with _ | v
    · simp [jsOr, attrOrDefault, h]
    · have hne : v ≠ "" := hgood (k, v) (assocLookup_mem attrs k v h)
      simp [jsOr, attrOrDefault, h, hne]
  intro key hkey
  fin_cases hkey <;> exact congrArg some (hOr _)

mutual
/-- `processNode` builds exactly one node per raw element. -/
theorem preorder_length_processNode (r : RawNode) (id : Nat) :
    (preorder (processNode r id)).length = countRaw r := by
  obtain ⟨attrs, cs⟩ := r
  rw [processNode, preorder, countRaw]
  simp [preorderList_length_processChildren cs]
  omega

theorem preorderList_length_processChildren (cs : List RawNode) (k : Nat) :
    (preorderList (processChildren cs k)).length = countRawList cs := by
  cases cs with
  | nil => simp [processChildren, preorderList, countRawList]
  | cons c cs' =>
    rw [processChildren, preorderList, countRawList]
    simp [preorder_length_processNode c, preorderList_length_processChildren cs']
end

/-- Every raw element reachable by a child path reappears, processed with
some identifier, at the same path of the processed tree. -/
theorem processNode_atPath (path : List Nat) :
    ∀ (raw : RawNode) (id : Nat) (r' : RawNode),
      rawAtPath raw path = some r' →
      ∃ id', nodeAtPath (processNode raw id) path = some (processNode r' id') := by
  induction path with
  | nil =>
    intro raw id r' h
    simp [rawAtPath] at h
    subst h
    exact ⟨id, by simp [nodeAtPath]⟩
  | cons i p ih =>
    intro raw id r' h
    obtain ⟨attrs, cs⟩ := raw
    rw [rawAtPath] at h
    rcases hg : cs.get? i with _ | c
    · rw [RawNode.children, hg] at h
      cases h
    · rw [RawNode.children, hg] at h
      obtain ⟨id', hid⟩ := ih c (id * 1000 + 1 + i) r' h
      refine ⟨id', ?_⟩
      rw [nodeAtPath, processNode, PNode.children, processChildren_get, hg]
      exact hid

/-- C4 (amended): a well-formed dump whose present attribute values are
all non-empty parses into a tree with exactly as many nodes as the dump
has elements, and at every tree position each dedicated field equals the
source attribute verbatim when present (non-empty) and the documented
default otherwise — `enabled` and `visible-to-user` defaulting to
`"true"`, every other boolean flag to `"false"`.  (A present-but-empty
attribute is replaced by its default, see the counterexample.) -/
theorem roundTrip_defaults (raw : RawNode) (id : Nat)
    (hgood : ∀ path r, rawAtPath raw path = some r → ∀ kv ∈ r.attrs, kv.2 ≠ "") :
    (preorder (processNode raw id)).length = countRaw raw ∧
    (∀ path r' n', rawAtPath raw path = some r' →
      nodeAtPath (processNode raw id) path = some n' →
      ∀ key ∈ dumpKeys,
        getStrField n'.info key = some (attrOrDefault r'.attrs key)) ∧
    defaultFor "enabled" = "true" ∧ defaultFor "visible-to-user" = "true" ∧
    defaultFor "clickable" = "false" ∧ defaultFor "long-clickable" = "false" ∧
    defaultFor "selected" = "false" ∧ defaultFor "focused" = "false" ∧
    defaultFor "focusable" = "false" ∧ defaultFor "scrollable" = "false" ∧
    defaultFor "checkable" = "false" ∧ defaultFor "checked" = "false" ∧
    defaultFor "password" = "false" := by
  refine ⟨preorder_length_processNode raw id, ?_,
    rfl, rfl, rfl, rfl, rfl, rfl, rfl, rfl, rfl, rfl, rfl⟩
  intro path r' n' hr hn key hkey
  obtain ⟨id', hid⟩ := processNode_atPath path raw id r' hr
  rw [hid] at hn
  injection hn with hn
  subst hn
  obtain ⟨attrs', cs'⟩ := r'
  have hinfo : (processNode (RawNode.mk attrs' cs') id').info
      = processInfo attrs' id' := rfl
  rw [hinfo]
  exact processInfo_field attrs' id'
    (by simpa [RawNode.attrs] using hgood path _ hr) key hkey

/-- C4 witness: the one-element dump `text="hi"` round-trips: one node,
`text` copied verbatim. -/
theorem roundTrip_defaults_witness :
    (preorder (processNode (RawNode.mk [("text", "hi")] []) 0)).length
        = countRaw (RawNode.mk [("text", "hi")] []) ∧
    getStrField (processNode (RawNode.mk [("text", "hi")] []) 0).info "text"
        = some "hi" := by
  have hgood : ∀ path r,
      rawAtPath (RawNode.mk [("text", "hi")] []) path = some r →
      ∀ kv ∈ r.attrs, kv.2 ≠ "" := by
    intro path r h
    cases path with
    | nil =>
      simp [rawAtPath] at h
      subst h
      intro kv hkv
      simp [RawNode.attrs] at hkv
      subst hkv
      decide
    | cons i p =>
      rw [rawAtPath, RawNode.children] at h
      simp at h
  have h := roundTrip_defaults (RawNode.mk [("text", "hi")] []) 0 hgood
  exact ⟨h.1, h.2.1 [] _ _ rfl rfl "text" (by simp [dumpKeys])⟩

/-- On canonical flag strings, the element handle's test of one
boolean-valued `clickable`/`enabled` entry agrees with the query engine's. -/
theorem flagField_agree (ri : String → String → Bool) (n : NodeInfo)
    (key : String) (b : Bool)
    (hkey : key = "clickable" ∨ key = "enabled")
    (hc : n.clickable = "true" ∨ n.clickable = "false")
    (he : n.enabled = "true" ∨ n.enabled = "false") :
    elemMatchField (mkAndroidElement n) key (SelVal.sbool b)
      = matchObjField ri n key (SelVal.sbool b) := by
  rcases hkey with hkey | hkey <;> subst hkey
  · have h1 : elemMatchField (mkAndroidElement n) "clickable" (SelVal.sbool b)
        = ((n.clickable == "true") == b) := rfl
    have h2 : matchObjField ri n "clickable" (SelVal.sbool b)
        = (n.clickable == jsStringOf (SelVal.sbool b)) := rfl
    rw [h1, h2]
    rcases hc with h3 | h3 <;> rw [h3] <;> cases b <;> rfl
  · have h1 : elemMatchField (mkAndroidElement n) "enabled" (SelVal.sbool b)
        = ((n.enabled != "false") == b) := rfl
    have h2 : matchObjField ri n "enabled" (SelVal.sbool b)
        = (n.enabled == jsStringOf (SelVal.sbool b)) := rfl
    rw [h1, h2]
    rcases he with h3 | h3 <;> rw [h3] <;> cases b <;> rfl

/-- C10 (amended): on selectors whose entries are `clickable`/`enabled`
with boolean values, and node data whose `clickable` and `enabled` strings
are the canonical `"true"`/`"false"`, `AndroidElement.matches` and
`Selector._matchObjectSelector` yield the same accept/reject decision
(string-valued flags in the selector, or non-canonical flag strings on the
node, can make them diverge — see the counterexample). -/
theorem element_matches_refines_objectSelector (ri : String → String → Bool)
    (n : NodeInfo) (fields : List (String × SelVal))
    (hkeys : ∀ kv ∈ fields, kv.1 = "clickable" ∨ kv.1 = "enabled")
    (hvals : ∀ kv ∈ fields, ∃ b, kv.2 = SelVal.sbool b)
    (hc : n.clickable = "true" ∨ n.clickable = "false")
    (he : n.enabled = "true" ∨ n.enabled = "false") :
    elementMatches (mkAndroidElement n) (JSSelector.obj fields)
      = matchObjectSelector ri n fields := by
  show fields.all _ = fields.all _
  induction fields with
  | nil => rfl
  | cons kv rest ih =>
    simp only [List.all_cons]
    obtain ⟨b, hb⟩ := hvals kv (by simp)
    have hhead : elemMatchField (mkAndroidElement n) kv.1 kv.2
        = matchObjField ri n kv.1 kv.2 := by
      rw [hb]
      exact flagField_agree ri n kv.1 b (hkeys kv (by simp)) hc he
    rw [hhead,
      ih (fun x hx => hkeys x (List.mem_cons_of_mem _ hx))
        (fun x hx => hvals x (List.mem_cons_of_mem _ hx))]

/-- C10 witness: the default-attribute node (canonical flags
`clickable="false"`, `enabled="true"`) and the boolean selector
`{clickable: false, enabled: true}` get the same decision from both
matchers. -/
theorem element_matches_refines_witness :
    elementMatches (mkAndroidElement (processInfo [] 0))
        (JSSelector.obj
          [("clickable", SelVal.sbool false), ("enabled", SelVal.sbool true)])
      = matchObjectSelector noRegex (processInfo [] 0)
        [("clickable", SelVal.sbool false), ("enabled", SelVal.sbool true)] :=
  element_matches_refines_objectSelector noRegex (processInfo [] 0)
    [("clickable", SelVal.sbool false), ("enabled", SelVal.sbool true)]
    (by
      intro kv h
      simp only [List.mem_cons, List.not_mem_nil, or_false] at h
      rcases h with h | h
      · exact Or.inl (by rw [h])
      · exact Or.inr (by rw [h]))
    (by
      intro kv h
      simp only [List.mem_cons, List.not_mem_nil, or_false] at h
      rcases h with h | h
      · exact ⟨false, by rw [h]⟩
      · exact ⟨true, by rw [h]⟩)
    (Or.inr rfl) (Or.inl rfl)
